import Mathlib

/-!
Shallow embedding of `src/ftpserver.c` (FTP-File-Transfer-System).

The embedding models the request-handling protocol logic of the server:
tokenisation of the received command (`strtok` with delimiter " "), the
directory-listing and file-reading payload sources (`getDir`, `getFile`),
the reliable sender (`sendAll`), and the request handler
(`handleRequest`) as a function from the environment to the trace of
network events the handler performs.  Aspects that the C source leaves
to the environment (success of socket calls, directory contents, file
contents) are inputs of the model; undefined behaviour that is reachable
in the C source (passing a NULL token to `strcpy`, overflowing the fixed
128x128 filename table) is modelled by an explicit crash outcome.
-/

namespace FtpServer

/-- The buffer-size constant `BUF_LEN` (ftpserver.c line 25): size of the
command buffer, the filename buffer, and each dimension of the filename
table in `getDir`. -/
def BUF_LEN : Nat := 128

/-- Response token `CMD_OK` (ftpserver.c line 244). -/
def CMD_OK : String := "OK"

/-- Response token `BAD_CMD` (ftpserver.c line 245). -/
def BAD_CMD : String := "INVALID COMMAND"

/-- Response token `BAD_DIR` (ftpserver.c line 246). -/
def BAD_DIR : String := "ERROR READING DIRECTORY"

/-- Response token `BAD_FIL` (ftpserver.c line 247). -/
def BAD_FIL : String := "FILE NOT FOUND"

/-- Helper for `tokenize`: walks the character list, accumulating the
current token in `acc` (reversed); a space ends the current token (empty
runs are skipped, matching `strtok`). -/
def splitTokens : List Char → List Char → List String
  | [], acc => if acc.isEmpty then [] else [String.mk acc.reverse]
  | c :: cs, acc =>
    if c = ' ' then
      if acc.isEmpty then splitTokens cs []
      else String.mk acc.reverse :: splitTokens cs []
    else splitTokens cs (c :: acc)

/-- Models the sequence of tokens produced by successive
`strtok(cmd, " ")` / `strtok(NULL, " ")` calls in `handleRequest`
(ftpserver.c lines 258, 276, 315): the maximal nonempty runs of
non-space characters, in order.  An empty result models `strtok`
returning NULL on the first call. -/
def tokenize (s : String) : List String := splitTokens s.data []

/-- Helper for `splitOnNewline`: splits a character list at every
newline character, keeping every segment (including a final empty
segment when the list ends in a newline). -/
def splitNL : List Char → List Char → List String
  | [], acc => [String.mk acc.reverse]
  | c :: cs, acc =>
    if c = '\n' then String.mk acc.reverse :: splitNL cs []
    else splitNL cs (c :: acc)

/-- Splitting a payload on the newline character, used to state the
round-trip property of the directory listing. -/
def splitOnNewline (s : String) : List String := splitNL s.data []

/-- One entry returned by `readdir`: its name (`d_name`) and whether its
`d_type` is `DT_REG` (a regular file). -/
structure DirEnt where
  name : String
  isReg : Bool
deriving DecidableEq

/-- The names of the regular files of a directory, in enumeration order:
the entries `getDir` keeps (ftpserver.c lines 418-426 keep exactly the
entries with `d_type == DT_REG`). -/
def regFiles (dir : List DirEnt) : List String :=
  (dir.filter (fun e => e.isReg)).map (fun e => e.name)

/-- Result of `getDir` (ftpserver.c lines 400-452).  `err` is the C
return value -1 (opendir failed); `ub` marks the undefined behaviour of
overflowing the fixed `files[BUF_LEN][BUF_LEN]` table (more than 128
regular files, or a name of 128 bytes or more overflowing its 128-byte
slot via `strcpy`); `ok` carries the payload string and the returned
size. -/
inductive DirResult where
  | err
  | ub
  | ok (payload : String) (size : Nat)
deriving DecidableEq

/-- The size computed by the `readdir` loop of `getDir` (ftpserver.c
lines 422-423): for each regular file, `strlen` of its name plus one for
the newline. -/
def dirSize (names : List String) : Nat :=
  (names.map (fun n => n.length + 1)).sum

/-- The payload built by the concatenation loop of `getDir` (ftpserver.c
lines 436-446): each name followed by a newline, in enumeration order
(`strcpy` for the first name and `strcat` for the rest produce exactly
this concatenation). -/
def dirPayload : List String → String
  | [] => ""
  | n :: rest => n ++ "\n" ++ dirPayload rest

/-- Model of `getDir` (ftpserver.c lines 400-452).  `opendirOk` is
whether `opendir(".")` succeeds (line 412; failure is return value -1).
With 0 regular files the function returns the one-byte placeholder `" "`
and size 1 (line 431).  Otherwise it returns the newline-joined names
and their total size.  The bounds of the fixed filename table are
checked: violating them is undefined behaviour in the C source (`ub`).
The C code also writes a terminating NUL one byte past the allocated
payload buffer (line 447, a known off-by-one noted in the specification);
this write is not observable in the payload bytes sent and is not
modelled. -/
def getDir (opendirOk : Bool) (dir : List DirEnt) : DirResult :=
  if !opendirOk then DirResult.err
  else
    let names := regFiles dir
    if names.length ≤ BUF_LEN ∧ ∀ n ∈ names, n.length < BUF_LEN then
      if dirSize names = 0 then DirResult.ok " " 1
      else DirResult.ok (dirPayload names) (dirSize names)
    else DirResult.ub

/-- Result of `getFile` (ftpserver.c lines 461-496): `err` is the C
return value -1 (fopen failed — file not found), `ok` carries the file
contents and the returned size. -/
inductive FileResult where
  | err
  | ok (contents : String) (size : Nat)
deriving DecidableEq

/-- The filesystem visible to `fopen`: an association of file names to
contents. -/
def lookupFile (fs : List (String × String)) (name : String) : Option String :=
  (fs.find? (fun p => p.1 = name)).map (fun p => p.2)

/-- Model of `getFile` (ftpserver.c lines 461-496): `fopen` fails (and
the function returns -1) exactly when the name is absent from the
filesystem; otherwise `fseek`/`ftell` determine the exact byte length and
`fread` fills the buffer with the contents.  The same off-by-one NUL
write past the buffer (line 491) exists as in `getDir` and is likewise
not observable in the payload bytes. -/
def getFile (fs : List (String × String)) (name : String) : FileResult :=
  match lookupFile fs name with
  | none => FileResult.err
  | some c => FileResult.ok c c.length

/-- The network events a run of `handleRequest` performs, in order.
`ctrlSend` is a `send` on the control connection; `dataAttempt` is the
`dataConnect(host, port)` call (the port token may be NULL when the
command had no trailing token); `dataSend` is the length-header `send` on
the data connection; `payloadSend` records the `sendAll(dataConn, msg,
len)` call; `ctrlRecvAck` is the final blocking `recv` on the control
connection; `closeData` is `close(dataConn)`; `crash` marks reachable
undefined behaviour in the C source. -/
inductive Ev where
  | ctrlSend (tok : String)
  | dataAttempt (host : String) (port : Option String)
  | dataSend (s : String)
  | payloadSend (payload : String) (len : Nat)
  | ctrlRecvAck
  | closeData
  | crash
deriving DecidableEq

/-- The environment of one `handleRequest` run: whether the initial
`recv` succeeds, whether `opendir` succeeds, whether the `send` of the
OK token succeeds, whether `dataConnect` succeeds, whether the `send` of
the length header succeeds, the directory contents and the filesystem. -/
structure World where
  recvOk : Bool
  opendirOk : Bool
  okSendOk : Bool
  dataConnOk : Bool
  lenSendOk : Bool
  dir : List DirEnt
  fs : List (String × String)

/-- The length header string: `sprintf(lenStr, "%d", len)` followed by
`strcat(lenStr, "\n")` (ftpserver.c lines 311-312). -/
def lenHeader (len : Nat) : String := toString len ++ "\n"

/-- The common tail of `handleRequest` after a payload was acquired
(ftpserver.c lines 300-346): send OK on the control connection; if that
succeeded, attempt the data connection; if established, send the length
header; if that succeeded, send the payload via `sendAll`, perform the
final blocking `recv` on the control connection, and close the data
connection.  A failed length-header send closes the data connection at
once (line 324).  The two `sleep(2)` pacing calls and the log output are
not network events and are not modelled. -/
def afterPayload (w : World) (host : String) (port : Option String)
    (msg : String) (len : Nat) : List Ev :=
  Ev.ctrlSend CMD_OK ::
    (if w.okSendOk then
      Ev.dataAttempt host port ::
        (if w.dataConnOk then
          Ev.dataSend (lenHeader len) ::
            (if w.lenSendOk then
              [Ev.payloadSend msg len, Ev.ctrlRecvAck, Ev.closeData]
            else [Ev.closeData])
        else [])
    else [])

/-- Model of `handleRequest` (ftpserver.c lines 228-346), returning the
trace of network events.  A failed or empty initial `recv` aborts with
no events (line 251).  A command with no tokens makes `strtok` return
NULL and `strcmp(NULL, "-l")` is undefined behaviour (`crash`).  For
`-l` the directory listing is fetched; `-1` sends the BAD_DIR token and
aborts.  For `-g` the next token is copied into the filename buffer:
when it is NULL, `strcpy(name, NULL)` is undefined behaviour (`crash`);
a failed `getFile` sends the BAD_FIL token and aborts.  Any other first
token sends the BAD_CMD token and aborts.  (The initial `recv` reads at
most `BUF_LEN - 1` bytes, so every token has at most 127 characters and
the `strcpy` into the 128-byte filename buffer cannot overflow.)  The
data port is the token after the filename (for `-g`) or after the flag
(for `-l`). -/
def handleRequest (w : World) (host : String) (cmd : String) : List Ev :=
  if !w.recvOk then []
  else
    match tokenize cmd with
    | [] => [Ev.crash]
    | op :: rest =>
      if op = "-l" then
        match getDir w.opendirOk w.dir with
        | DirResult.err => [Ev.ctrlSend BAD_DIR]
        | DirResult.ub => [Ev.crash]
        | DirResult.ok msg len => afterPayload w host rest.head? msg len
      else if op = "-g" then
        match rest with
        | [] => [Ev.crash]
        | nm :: rest2 =>
          match getFile w.fs nm with
          | FileResult.err => [Ev.ctrlSend BAD_FIL]
          | FileResult.ok msg len => afterPayload w host rest2.head? msg len
      else [Ev.ctrlSend BAD_CMD]

/-- The result of one underlying `send(2)` call as seen by `sendAll`:
either a hard failure (-1) or a report of `n` bytes written. -/
inductive SendRes where
  | fail
  | ok (n : Nat)
deriving DecidableEq

/-- Model of the loop of `sendAll` (ftpserver.c lines 357-374), driven
by the list `rs` of results the network returns for successive `send`
calls.  Returns `none` when the loop would issue more `send` calls than
`rs` provides; otherwise `some (calls, total, failed)` where `calls`
lists each issued `send` call as `(offset into the buffer, requested
byte count)` — the C call is `send(conn, str + total, rem, 0)` with
`rem = len - total` — `total` is the cumulative byte count on exit and
`failed` is whether the loop exited by `break` on a -1 result. -/
def sendAllGo (rs : List SendRes) (len total : Nat) :
    Option (List (Nat × Nat) × Nat × Bool) :=
  if total < len then
    match rs with
    | [] => none
    | SendRes.fail :: _ => some ([(total, len - total)], total, true)
    | SendRes.ok n :: rest =>
      match sendAllGo rest len (total + n) with
      | none => none
      | some (cs, t, f) => some ((total, len - total) :: cs, t, f)
  else some ([], total, false)

/-- A full run of the `sendAll` loop starting from `total = 0`. -/
def sendAllRun (rs : List SendRes) (len : Nat) :
    Option (List (Nat × Nat) × Nat × Bool) :=
  sendAllGo rs len 0

/-- The return value of `sendAll` (ftpserver.c line 373):
`(n == -1) ? -1 : total`.  (With `len = 0` the loop body never runs and
the C code reads the uninitialised `n`; the model resolves that case to
returning `total = 0`.) -/
def sendAll (rs : List SendRes) (len : Nat) : Option Int :=
  (sendAllRun rs len).map (fun r => if r.2.2 then (-1 : Int) else (r.2.1 : Int))

/-- The cumulative number of bytes the underlying `send` calls reported
written during a run of `sendAll`. -/
def sendAllWritten (rs : List SendRes) (len : Nat) : Option Nat :=
  (sendAllRun rs len).map (fun r => r.2.1)

/-- A fully successful environment: every socket operation succeeds, the
working directory is empty, and the filesystem holds the single file
"report.txt" with the 5-byte contents "hello". -/
def wReport : World :=
  ⟨true, true, true, true, true, [], [("report.txt", "hello")]⟩

theorem sendAllGo_fail_lt (rs : List SendRes) :
    ∀ (len total : Nat) (cs : List (Nat × Nat)) (t : Nat),
      sendAllGo rs len total = some (cs, t, true) → t < len := by
  induction rs with
  | nil =>
    intro len total cs t h
    rw [sendAllGo.eq_def] at h
    split at h
    · simp at h
    · simp at h
  | cons r rest ih =>
    intro len total cs t h
    rw [sendAllGo.eq_def] at h
    split at h
    case isTrue hlt =>
      split at h
      · simp at h
      · simp at h
        omega
      · rename_i n2 rest2 heq
        injection heq with heq1 heq2
        subst heq1
        subst heq2
        split at h
        · simp at h
        · rename_i cs2 t2 f2 hrec
          simp only [Option.some.injEq, Prod.mk.injEq] at h
          obtain ⟨rfl, rfl, rfl⟩ := h
          exact ih _ _ cs2 t2 hrec
    case isFalse hge => simp at h

theorem sendAllGo_mem_calls (rs : List SendRes) :
    ∀ (len total : Nat) (cs : List (Nat × Nat)) (t : Nat) (f : Bool),
      sendAllGo rs len total = some (cs, t, f) →
      ∀ c ∈ cs, c.1 < len ∧ c.2 = len - c.1 := by
  induction rs with
  | nil =>
    intro len total cs t f h c hc
    rw [sendAllGo.eq_def] at h
    split at h
    · simp at h
    · simp only [Option.some.injEq, Prod.mk.injEq] at h
      obtain ⟨rfl, rfl, rfl⟩ := h
      simp at hc
  | cons r rest ih =>
    intro len total cs t f h c hc
    rw [sendAllGo.eq_def] at h
    split at h
    case isTrue hlt =>
      split at h
      · simp at h
      · simp only [Option.some.injEq, Prod.mk.injEq] at h
        obtain ⟨rfl, rfl, rfl⟩ := h
        simp at hc
        subst hc
        exact ⟨hlt, rfl⟩
      · rename_i n2 rest2 heq
        injection heq with heq1 heq2
        subst heq1
        subst heq2
        split at h
        · simp at h
        · rename_i cs2 t2 f2 hrec
          simp only [Option.some.injEq, Prod.mk.injEq] at h
          obtain ⟨rfl, rfl, rfl⟩ := h
          rcases List.mem_cons.mp hc with rfl | hc2
          · exact ⟨hlt, rfl⟩
          · exact ih _ _ cs2 t2 f2 hrec c hc2
    case isFalse hge =>
      simp only [Option.some.injEq, Prod.mk.injEq] at h
      obtain ⟨rfl, rfl, rfl⟩ := h
      simp at hc

theorem sendAllGo_complete (rs : List SendRes) :
    ∀ (len total : Nat) (cs : List (Nat × Nat)) (t : Nat),
      sendAllGo rs len total = some (cs, t, false) → len ≤ t := by
  induction rs with
  | nil =>
    intro len total cs t h
    rw [sendAllGo.eq_def] at h
    split at h
    case isTrue hlt => simp at h
    case isFalse hge =>
      simp only [Option.some.injEq, Prod.mk.injEq] at h
      obtain ⟨rfl, rfl, -⟩ := h
      omega
  | cons r rest ih =>
    intro len total cs t h
    rw [sendAllGo.eq_def] at h
    split at h
    case isTrue hlt =>
      split at h
      · simp at h
      · simp at h
      · rename_i n2 rest2 heq
        injection heq with heq1 heq2
        subst heq1
        subst heq2
        split at h
        · simp at h
        · rename_i cs2 t2 f2 hrec
          simp only [Option.some.injEq, Prod.mk.injEq] at h
          obtain ⟨rfl, rfl, hf⟩ := h
          exact ih _ _ cs2 t2 (by rw [hrec, hf])
    case isFalse hge =>
      simp only [Option.some.injEq, Prod.mk.injEq] at h
      obtain ⟨rfl, rfl, -⟩ := h
      omega

theorem sendAllGo_stop_on_fail (rs : List SendRes) :
    ∀ (len total : Nat) (cs : List (Nat × Nat)) (t : Nat) (f : Bool),
      sendAllGo rs len total = some (cs, t, f) →
      ∀ i : Nat, rs.get? i = some SendRes.fail → cs.length ≤ i + 1 := by
  induction rs with
  | nil =>
    intro len total cs t f h i hi
    simp at hi
  | cons r rest ih =>
    intro len total cs t f h i hi
    rw [sendAllGo.eq_def] at h
    split at h
    case isTrue hlt =>
      split at h
      · simp at h
      · simp only [Option.some.injEq, Prod.mk.injEq] at h
        obtain ⟨rfl, rfl, rfl⟩ := h
        simp
      · rename_i n2 rest2 heq
        injection heq with heq1 heq2
        subst heq1
        subst heq2
        split at h
        · simp at h
        · rename_i cs2 t2 f2 hrec
          simp only [Option.some.injEq, Prod.mk.injEq] at h
          obtain ⟨rfl, rfl, rfl⟩ := h
          cases i with
          | zero => simp at hi
          | succ j =>
            have hrec2 := ih _ _ cs2 t2 f2 hrec j (by simpa using hi)
            simp only [List.length_cons]
            omega
    case isFalse hge =>
      simp only [Option.some.injEq, Prod.mk.injEq] at h
      obtain ⟨rfl, rfl, rfl⟩ := h
      simp

theorem sendAllGo_exact (rs : List SendRes) :
    ∀ (len total : Nat) (cs : List (Nat × Nat)) (t : Nat),
      total ≤ len →
      sendAllGo rs len total = some (cs, t, false) →
      (∀ (j off req n : Nat), cs.get? j = some (off, req) →
        rs.get? j = some (SendRes.ok n) → n ≤ req) →
      t = len := by
  induction rs with
  | nil =>
    intro len total cs t hle h hb
    rw [sendAllGo.eq_def] at h
    split at h
    case isTrue hlt => simp at h
    case isFalse hge =>
      simp only [Option.some.injEq, Prod.mk.injEq] at h
      obtain ⟨rfl, rfl, -⟩ := h
      omega
  | cons r rest ih =>
    intro len total cs t hle h hb
    rw [sendAllGo.eq_def] at h
    split at h
    case isTrue hlt =>
      split at h
      · simp at h
      · simp at h
      · rename_i n2 rest2 heq
        injection heq with heq1 heq2
        subst heq1
        subst heq2
        split at h
        · simp at h
        · rename_i cs2 t2 f2 hrec
          simp only [Option.some.injEq, Prod.mk.injEq] at h
          obtain ⟨rfl, rfl, hf⟩ := h
          have hn : n2 ≤ len - total :=
            hb 0 total (len - total) n2 (by simp) (by simp)
          have htot : total + n2 ≤ len := by omega
          refine ih _ _ cs2 t2 htot (by rw [hrec, hf]) ?_
          intro j off req n hcj hrj
          exact hb (j + 1) off req n (by simpa using hcj) (by simpa using hrj)
    case isFalse hge =>
      simp only [Option.some.injEq, Prod.mk.injEq] at h
      obtain ⟨rfl, rfl, -⟩ := h
      omega

/-- Claim C3, counterexample: when the first underlying send writes 3 of
the 5 requested bytes and the second send hard-fails, `sendAll` has
actually written 3 bytes but returns -1, not 3 — the claim that it
returns the total number of bytes actually written even after a failure
is false on the code. -/
theorem c3_return_value_counterexample :
    sendAll [SendRes.ok 3, SendRes.fail] 5 = some (-1)
    ∧ sendAllWritten [SendRes.ok 3, SendRes.fail] 5 = some 3
    ∧ ((-1 : Int) ≠ (3 : Int)) := by decide

/-- Claim C3 (amended): `sendAll` returns the cumulative total only when
no underlying send call fails; after a hard failure (including one after
a partial write) it returns the sentinel -1, not the partial total.
Since -1 is smaller than the (necessarily positive) requested length,
the caller comparison `sendAll(...) < len` still detects incomplete
delivery. -/
theorem c3_return_value_amended (rs : List SendRes) (len : Nat)
    (cs : List (Nat × Nat)) (t : Nat) (f : Bool)
    (hrun : sendAllRun rs len = some (cs, t, f)) :
    sendAllWritten rs len = some t
    ∧ (f = false → sendAll rs len = some (t : Int))
    ∧ (f = true → sendAll rs len = some (-1) ∧ ((-1 : Int) < (len : Int))) := by
  refine ⟨?_, ?_, ?_⟩
  · simp [sendAllWritten, hrun]
  · intro hf
    simp [sendAll, hrun, hf]
  · intro hf
    have hlt : t < len := sendAllGo_fail_lt rs len 0 cs t (by rw [← hf]; exact hrun)
    constructor
    · simp [sendAll, hrun, hf]
    · omega

/-- Claim C3 witness: the amended theorem applied to the run in which
the first send writes 3 of 5 bytes and the second fails. -/
theorem c3_return_value_amended_witness :
    sendAllWritten [SendRes.ok 3, SendRes.fail] 5 = some 3
    ∧ (true = false → sendAll [SendRes.ok 3, SendRes.fail] 5 = some ((3 : Nat) : Int))
    ∧ (true = true → sendAll [SendRes.ok 3, SendRes.fail] 5 = some (-1)
        ∧ ((-1 : Int) < ((5 : Nat) : Int))) :=
  c3_return_value_amended [SendRes.ok 3, SendRes.fail] 5 [(0, 5), (3, 2)] 3 true (by decide)

/-- Claim C4: for a positive requested length, every `send` call issued
by `sendAll` covers exactly the remaining suffix of the buffer (offset
below `len`, requested count `len - offset` — so no byte beyond the
requested length is ever sent); the loop keeps issuing sends until the
cumulative total reaches the requested length (`f = false` exits imply
`len ≤ t`, and when every send reports at most what was requested the
total on a non-failing exit is exactly `len`); and once a send
hard-fails no further send call is issued (the number of issued calls is
at most one more than the index of any failing response). -/
theorem c4_partial_send_recovery (rs : List SendRes) (len : Nat)
    (cs : List (Nat × Nat)) (t : Nat) (f : Bool)
    (_hlen : 0 < len)
    (hrun : sendAllRun rs len = some (cs, t, f)) :
    (∀ c ∈ cs, c.1 < len ∧ c.2 = len - c.1)
    ∧ (f = false → len ≤ t)
    ∧ (∀ i : Nat, rs.get? i = some SendRes.fail → cs.length ≤ i + 1)
    ∧ ((∀ (j off req n : Nat), cs.get? j = some (off, req) →
          rs.get? j = some (SendRes.ok n) → n ≤ req) →
        f = false → t = len) := by
  refine ⟨?_, ?_, ?_, ?_⟩
  · exact sendAllGo_mem_calls rs len 0 cs t f hrun
  · intro hf
    exact sendAllGo_complete rs len 0 cs t (by rw [← hf]; exact hrun)
  · exact sendAllGo_stop_on_fail rs len 0 cs t f hrun
  · intro hb hf
    exact sendAllGo_exact rs len 0 cs t (Nat.zero_le len) (by rw [← hf]; exact hrun) hb

/-- Claim C4 witness: the theorem applied to a run with a partial send
(2 bytes of 5) followed by a completing send of the 3-byte remainder. -/
theorem c4_partial_send_recovery_witness :
    (∀ c ∈ [((0 : Nat), (5 : Nat)), (2, 3)], c.1 < 5 ∧ c.2 = 5 - c.1)
    ∧ (false = false → 5 ≤ 5)
    ∧ (∀ i : Nat, [SendRes.ok 2, SendRes.ok 3].get? i = some SendRes.fail →
        [((0 : Nat), (5 : Nat)), (2, 3)].length ≤ i + 1)
    ∧ ((∀ (j off req n : Nat), [((0 : Nat), (5 : Nat)), (2, 3)].get? j = some (off, req) →
          [SendRes.ok 2, SendRes.ok 3].get? j = some (SendRes.ok n) → n ≤ req) →
        false = false → 5 = 5) :=
  c4_partial_send_recovery [SendRes.ok 2, SendRes.ok 3] 5 [(0, 5), (2, 3)] 5 false
    (by decide) (by decide)

theorem string_data_append (s t : String) : (s ++ t).data = s.data ++ t.data := by
  cases s
  cases t
  rfl

theorem dirPayload_cons_data (n : String) (rest : List String) :
    (dirPayload (n :: rest)).data = n.data ++ '\n' :: (dirPayload rest).data := by
  show (n ++ "\n" ++ dirPayload rest).data = _
  rw [string_data_append, string_data_append, List.append_assoc]
  rfl

theorem splitNL_no_newline (l : List Char) :
    ∀ (acc rest : List Char), '\n' ∉ l →
      splitNL (l ++ '\n' :: rest) acc =
        String.mk (acc.reverse ++ l) :: splitNL rest [] := by
  induction l with
  | nil =>
    intro acc rest _
    simp [splitNL]
  | cons c cs ih =>
    intro acc rest hnl
    have hc : ¬ c = '\n' := fun e => hnl (by rw [e]; exact List.mem_cons_self _ _)
    have hcs : '\n' ∉ cs := fun m => hnl (List.mem_cons_of_mem _ m)
    rw [List.cons_append, splitNL, if_neg hc, ih (c :: acc) rest hcs]
    congr 2
    simp

theorem splitOnNewline_dirPayload (names : List String) :
    (∀ n ∈ names, '\n' ∉ n.data) →
    splitOnNewline (dirPayload names) = names ++ [""] := by
  induction names with
  | nil =>
    intro _
    decide
  | cons n rest ih =>
    intro h
    unfold splitOnNewline
    rw [dirPayload_cons_data,
      splitNL_no_newline n.data [] (dirPayload rest).data (h n (List.mem_cons_self _ _))]
    have hmk : String.mk n.data = n := by cases n; rfl
    rw [List.reverse_nil, List.nil_append, hmk, List.cons_append]
    exact congrArg (fun l => n :: l) (ih (fun m hm => h m (List.mem_cons_of_mem _ hm)))

theorem dirSize_cons (n : String) (rest : List String) :
    dirSize (n :: rest) = n.length + 1 + dirSize rest := by
  simp [dirSize]

theorem getDir_ok_of_bounds (dir : List DirEnt)
    (hcount : (regFiles dir).length ≤ BUF_LEN)
    (hlen : ∀ n ∈ regFiles dir, n.length < BUF_LEN)
    (hne : regFiles dir ≠ []) :
    getDir true dir = DirResult.ok (dirPayload (regFiles dir)) (dirSize (regFiles dir)) := by
  have h0 : dirSize (regFiles dir) ≠ 0 := by
    cases hreg : regFiles dir with
    | nil => exact absurd hreg hne
    | cons a b =>
      rw [dirSize_cons]
      omega
  unfold getDir
  rw [if_neg (by simp), if_pos ⟨hcount, hlen⟩, if_neg h0]

/-- Claim C7, counterexample: a directory whose single regular file is
named "a\nb" (filenames may contain a newline).  The payload is
"a\nb\n" and splitting it on newline yields the two segments "a" and
"b", not the one-element name list: the original file name is not even a
member of the split.  The size clause still holds (4 = 3 + 1), but the
round-trip clause of the claim is false on the code. -/
theorem c7_newline_name_counterexample :
    getDir true [⟨"a\nb", true⟩] = DirResult.ok "a\nb\n" 4
    ∧ regFiles [⟨"a\nb", true⟩] = ["a\nb"]
    ∧ (splitOnNewline "a\nb\n").dropLast = ["a", "b"]
    ∧ ¬ (splitOnNewline "a\nb\n").dropLast = ["a\nb"]
    ∧ ¬ "a\nb" ∈ (splitOnNewline "a\nb\n").dropLast := by decide

/-- Claim C7 (amended): for every working directory with at least one
regular file, in which no regular file name contains a newline character
and which is within the fixed-table bounds (at most 128 regular files,
each name shorter than 128 bytes), the listing payload is the
newline-terminated concatenation of the names in enumeration order;
splitting it on newline and dropping the final empty segment (the one
after the terminating newline) yields exactly the names in enumeration
order; and the returned length is the sum of the name lengths plus one
newline per name. -/
theorem c7_round_trip_amended (dir : List DirEnt)
    (hne : regFiles dir ≠ [])
    (hcount : (regFiles dir).length ≤ BUF_LEN)
    (hlen : ∀ n ∈ regFiles dir, n.length < BUF_LEN)
    (hnl : ∀ n ∈ regFiles dir, '\n' ∉ n.data) :
    getDir true dir = DirResult.ok (dirPayload (regFiles dir)) (dirSize (regFiles dir))
    ∧ (splitOnNewline (dirPayload (regFiles dir))).dropLast = regFiles dir
    ∧ dirSize (regFiles dir) = ((regFiles dir).map (fun n => n.length + 1)).sum := by
  refine ⟨getDir_ok_of_bounds dir hcount hlen hne, ?_, rfl⟩
  rw [splitOnNewline_dirPayload (regFiles dir) hnl]
  exact List.dropLast_concat

theorem getDir_empty_payload (dir : List DirEnt) (hreg : regFiles dir = []) :
    getDir true dir = DirResult.ok " " 1 := by
  simp [getDir, hreg, dirSize, BUF_LEN]

/-- Claim C7 witness: the amended theorem applied to a directory holding
the two regular files "a" and "bb". -/
theorem c7_round_trip_amended_witness :
    getDir true [⟨"a", true⟩, ⟨"bb", true⟩] =
      DirResult.ok (dirPayload (regFiles [⟨"a", true⟩, ⟨"bb", true⟩]))
        (dirSize (regFiles [⟨"a", true⟩, ⟨"bb", true⟩]))
    ∧ (splitOnNewline (dirPayload (regFiles [⟨"a", true⟩, ⟨"bb", true⟩]))).dropLast =
        regFiles [⟨"a", true⟩, ⟨"bb", true⟩]
    ∧ dirSize (regFiles [⟨"a", true⟩, ⟨"bb", true⟩]) =
        ((regFiles [⟨"a", true⟩, ⟨"bb", true⟩]).map (fun n => n.length + 1)).sum :=
  c7_round_trip_amended [⟨"a", true⟩, ⟨"bb", true⟩]
    (by decide) (by decide) (by decide) (by decide)

/-- Claim C8: a working directory with no regular files makes `getDir`
succeed with the single-space placeholder payload of length exactly 1,
which is distinct from the empty (zero-length) payload. -/
theorem c8_empty_dir_placeholder (dir : List DirEnt) (hreg : regFiles dir = []) :
    getDir true dir = DirResult.ok " " 1
    ∧ (" " : String).length = 1
    ∧ (" " : String) ≠ "" :=
  ⟨getDir_empty_payload dir hreg, by decide, by decide⟩

/-- Claim C8 witness: the theorem applied to a directory whose only
entry is a (non-regular) subdirectory. -/
theorem c8_empty_dir_placeholder_witness :
    getDir true [⟨"subdir", false⟩] = DirResult.ok " " 1
    ∧ (" " : String).length = 1
    ∧ (" " : String) ≠ "" :=
  c8_empty_dir_placeholder [⟨"subdir", false⟩] (by decide)

/-- Claim C10: when the working directory holds at most `BUF_LEN = 128`
regular files, each with a name shorter than 128 bytes, the fixed
`files[128][128]` table of `getDir` is not overflowed (no undefined
behaviour), and the result copies every regular file name whole into the
payload and counts each exactly once in the returned size. -/
theorem c10_table_bounds_correct (dir : List DirEnt)
    (hcount : (regFiles dir).length ≤ BUF_LEN)
    (hlen : ∀ n ∈ regFiles dir, n.length < BUF_LEN) :
    getDir true dir ≠ DirResult.ub
    ∧ (regFiles dir ≠ [] →
        getDir true dir = DirResult.ok (dirPayload (regFiles dir)) (dirSize (regFiles dir))) := by
  constructor
  · by_cases hne : regFiles dir = []
    · rw [getDir_empty_payload dir hne]
      simp
    · rw [getDir_ok_of_bounds dir hcount hlen hne]
      simp
  · intro hne
    exact getDir_ok_of_bounds dir hcount hlen hne

/-- Claim C10 witness: the theorem applied to a directory holding one
regular file "a". -/
theorem c10_table_bounds_correct_witness :
    getDir true [⟨"a", true⟩] ≠ DirResult.ub
    ∧ (regFiles [⟨"a", true⟩] ≠ [] →
        getDir true [⟨"a", true⟩] =
          DirResult.ok (dirPayload (regFiles [⟨"a", true⟩]))
            (dirSize (regFiles [⟨"a", true⟩]))) :=
  c10_table_bounds_correct [⟨"a", true⟩] (by decide) (by decide)


/-- Claim C1, counterexample: on the command "-g report.txt 51000" with
report.txt holding the 5 bytes "hello", the handler does send OK on the
control connection and the 5 payload bytes, but the first message
written on the data connection is the two-byte string "5\n" (the code
appends a newline to the length string), not the bare length string
"5". -/
theorem c1_length_header_counterexample :
    handleRequest wReport "10.0.0.5" "-g report.txt 51000" =
      [Ev.ctrlSend CMD_OK, Ev.dataAttempt "10.0.0.5" (some "51000"),
       Ev.dataSend "5\n", Ev.payloadSend "hello" 5, Ev.ctrlRecvAck, Ev.closeData]
    ∧ ¬ (handleRequest wReport "10.0.0.5" "-g report.txt 51000").get? 2 =
        some (Ev.dataSend "5") := by decide

/-- Claim C1 (amended): for the command "-g report.txt 51000" with
report.txt holding the 5 bytes "hello", the handler sends OK on the
control connection, and the first message written on the data connection
is the decimal ASCII length followed by a newline terminator ("5\n"),
followed by exactly the 5 payload bytes "hello". -/
theorem c1_get_scenario_amended :
    handleRequest wReport "10.0.0.5" "-g report.txt 51000" =
      [Ev.ctrlSend CMD_OK, Ev.dataAttempt "10.0.0.5" (some "51000"),
       Ev.dataSend (lenHeader 5), Ev.payloadSend "hello" 5, Ev.ctrlRecvAck, Ev.closeData]
    ∧ lenHeader 5 = "5\n"
    ∧ ("hello" : String).length = 5 := by decide

/-- Claim C2: on a received command whose first token is "-g" with no
filename token, the code does not send the invalid-command token: the
second `strtok` call returns NULL and `strcpy(name, NULL)` is undefined
behaviour (a crash), so the handler neither sends an error token nor
aborts cleanly.  The claim describes the specified intent; the code
diverges from it. -/
theorem c2_missing_filename_ub :
    handleRequest wReport "10.0.0.5" "-g" = [Ev.crash]
    ∧ ¬ handleRequest wReport "10.0.0.5" "-g" = [Ev.ctrlSend BAD_CMD] := by decide

/-- Claim C5: a GET request naming a file absent from the filesystem
makes the handler send exactly the FILE NOT FOUND token on the control
connection and stop: the trace holds no other event, so no data
connection is attempted and no further message is sent on either
channel. -/
theorem c5_file_not_found_abort (w : World) (host cmd nm : String) (rest : List String)
    (hrecv : w.recvOk = true)
    (htok : tokenize cmd = "-g" :: nm :: rest)
    (hfile : lookupFile w.fs nm = none) :
    handleRequest w host cmd = [Ev.ctrlSend BAD_FIL] := by
  unfold handleRequest
  rw [hrecv, htok]
  simp [getFile, hfile]

/-- Claim C5 witness: the theorem applied to the command
"-g nofile 51000" in an environment whose filesystem holds only
report.txt. -/
theorem c5_file_not_found_abort_witness :
    handleRequest wReport "10.0.0.5" "-g nofile 51000" = [Ev.ctrlSend BAD_FIL] :=
  c5_file_not_found_abort wReport "10.0.0.5" "-g nofile 51000" "nofile" ["51000"]
    (by decide) (by decide) (by decide)

theorem afterPayload_facts (w : World) (host : String) (port : Option String)
    (msg : String) (len : Nat) :
    (afterPayload w host port msg len).get? 0 = some (Ev.ctrlSend CMD_OK)
    ∧ (∀ (i : Nat) (h : String) (p : Option String),
        (afterPayload w host port msg len).get? i = some (Ev.dataAttempt h p) → 0 < i)
    ∧ (∀ s, Ev.dataSend s ∈ afterPayload w host port msg len → s = lenHeader len)
    ∧ (∀ (p : String) (l : Nat),
        Ev.payloadSend p l ∈ afterPayload w host port msg len → p = msg ∧ l = len) := by
  refine ⟨rfl, ?_, ?_, ?_⟩
  · intro i h p hi
    cases i with
    | zero => simp [afterPayload] at hi
    | succ j => omega
  · intro s hs
    obtain ⟨rOk, oOk, okS, dOk, lOk, dirw, fsw⟩ := w
    unfold afterPayload at hs
    cases okS <;> cases dOk <;> cases lOk <;> simp_all
  · intro p l hp
    obtain ⟨rOk, oOk, okS, dOk, lOk, dirw, fsw⟩ := w
    unfold afterPayload at hp
    cases okS <;> cases dOk <;> cases lOk <;> simp_all

/-- Claim C6: on a valid LIST request whose directory listing succeeded,
the trace starts with the OK token on the control connection, every
data-connection attempt comes strictly after it, every length header
written on the data connection is the decimal rendering of `len`
followed by the newline, and the payload handed to `sendAll` is exactly
the listing payload with requested length `len` — the value carried in
the length header. -/
theorem c6_list_ok_before_data (w : World) (host cmd : String) (rest : List String)
    (msg : String) (len : Nat)
    (hrecv : w.recvOk = true)
    (htok : tokenize cmd = "-l" :: rest)
    (hdir : getDir w.opendirOk w.dir = DirResult.ok msg len) :
    (handleRequest w host cmd).get? 0 = some (Ev.ctrlSend CMD_OK)
    ∧ (∀ (i : Nat) (h : String) (p : Option String),
        (handleRequest w host cmd).get? i = some (Ev.dataAttempt h p) → 0 < i)
    ∧ (∀ s, Ev.dataSend s ∈ handleRequest w host cmd → s = lenHeader len)
    ∧ (∀ (p : String) (l : Nat),
        Ev.payloadSend p l ∈ handleRequest w host cmd → p = msg ∧ l = len) := by
  have hred : handleRequest w host cmd = afterPayload w host rest.head? msg len := by
    unfold handleRequest
    rw [hrecv, htok, hdir]
    rfl
  rw [hred]
  exact afterPayload_facts w host rest.head? msg len

/-- Claim C6 witness: the theorem applied to the command "-l 51000" in
an environment with an empty working directory (listing payload " " of
length 1). -/
theorem c6_list_ok_before_data_witness :
    (handleRequest wReport "10.0.0.5" "-l 51000").get? 0 = some (Ev.ctrlSend CMD_OK)
    ∧ (∀ (i : Nat) (h : String) (p : Option String),
        (handleRequest wReport "10.0.0.5" "-l 51000").get? i =
          some (Ev.dataAttempt h p) → 0 < i)
    ∧ (∀ s, Ev.dataSend s ∈ handleRequest wReport "10.0.0.5" "-l 51000" →
        s = lenHeader 1)
    ∧ (∀ (p : String) (l : Nat),
        Ev.payloadSend p l ∈ handleRequest wReport "10.0.0.5" "-l 51000" →
          p = " " ∧ l = 1) :=
  c6_list_ok_before_data wReport "10.0.0.5" "-l 51000" ["51000"] " " 1
    (by decide) (by decide) (by decide)

theorem handleRequest_cases (w : World) (host cmd : String) :
    handleRequest w host cmd = []
    ∨ handleRequest w host cmd = [Ev.crash]
    ∨ (∃ tok, handleRequest w host cmd = [Ev.ctrlSend tok])
    ∨ (∃ port msg len, handleRequest w host cmd = afterPayload w host port msg len) := by
  unfold handleRequest
  split
  · exact Or.inl rfl
  · split
    · exact Or.inr (Or.inl rfl)
    · rename_i op rest heq0
      split
      · split
        · exact Or.inr (Or.inr (Or.inl ⟨BAD_DIR, rfl⟩))
        · exact Or.inr (Or.inl rfl)
        · rename_i msg len heq1
          exact Or.inr (Or.inr (Or.inr ⟨rest.head?, msg, len, rfl⟩))
      · split
        · split
          · exact Or.inr (Or.inl rfl)
          · rename_i nm rest2
            split
            · exact Or.inr (Or.inr (Or.inl ⟨BAD_FIL, rfl⟩))
            · rename_i msg len heq3
              exact Or.inr (Or.inr (Or.inr ⟨rest2.head?, msg, len, rfl⟩))
        · exact Or.inr (Or.inr (Or.inl ⟨BAD_CMD, rfl⟩))

theorem afterPayload_payload_index (w : World) (host : String) (port : Option String)
    (msg : String) (len : Nat) (i : Nat) (p : String) (l : Nat)
    (h : (afterPayload w host port msg len).get? i = some (Ev.payloadSend p l)) :
    (afterPayload w host port msg len).get? (i + 1) = some Ev.ctrlRecvAck
    ∧ (afterPayload w host port msg len).get? (i + 2) = some Ev.closeData
    ∧ (afterPayload w host port msg len).length = i + 3 := by
  obtain ⟨rOk, oOk, okS, dOk, lOk, dirw, fsw⟩ := w
  unfold afterPayload at h ⊢
  cases okS with
  | false =>
    have hm := List.get?_mem h
    simp at hm
  | true =>
    cases dOk with
    | false =>
      have hm := List.get?_mem h
      simp at hm
    | true =>
      cases lOk with
      | false =>
        have hm := List.get?_mem h
        simp at hm
      | true =>
        rcases i with _ | _ | _ | _ | _ | _ | j
        · simp at h
        · simp at h
        · simp at h
        · refine ⟨rfl, rfl, rfl⟩
        · simp at h
        · simp at h
        · simp [List.get?] at h

/-- Claim C9: whenever a run of the handler reaches the transfer phase
(the trace holds a `sendAll` payload transfer at position `i`), the very
next event is the blocking receive on the control connection waiting for
the client acknowledgment, the event after that is the close of the
data connection, and the trace ends there: the data connection is closed
only after that receive returns, so a client that sends nothing keeps
the handler blocked in that receive. -/
theorem c9_ack_recv_before_close (w : World) (host cmd : String) (i : Nat)
    (p : String) (l : Nat)
    (h : (handleRequest w host cmd).get? i = some (Ev.payloadSend p l)) :
    (handleRequest w host cmd).get? (i + 1) = some Ev.ctrlRecvAck
    ∧ (handleRequest w host cmd).get? (i + 2) = some Ev.closeData
    ∧ (handleRequest w host cmd).length = i + 3 := by
  rcases handleRequest_cases w host cmd with hc | hc | ⟨tok, hc⟩ | ⟨port, msg, len, hc⟩ <;>
    rw [hc] at h ⊢
  · simp at h
  · have hm := List.get?_mem h
    simp at hm
  · have hm := List.get?_mem h
    simp at hm
  · exact afterPayload_payload_index w host port msg len i p l h

/-- Claim C9 witness: the theorem applied to the LIST run of
`wReport` ("-l 51000" on the empty directory), whose payload transfer
sits at trace position 3. -/
theorem c9_ack_recv_before_close_witness :
    (handleRequest wReport "10.0.0.5" "-l 51000").get? (3 + 1) = some Ev.ctrlRecvAck
    ∧ (handleRequest wReport "10.0.0.5" "-l 51000").get? (3 + 2) = some Ev.closeData
    ∧ (handleRequest wReport "10.0.0.5" "-l 51000").length = 3 + 3 :=
  c9_ack_recv_before_close wReport "10.0.0.5" "-l 51000" 3 " " 1 (by decide)

end FtpServer
